import Mathlib

/-!
Verification of the pg-basic runtime execution engine (src/basic.js).

Shallow embedding of the `Basic` class: the engine state is an explicit
structure, each engine operation is a pure state transformer, and the
re-entrant run loop (`execute`) is modelled with explicit fuel.  Statement
nodes are external collaborators that call back into engine operations, so a
statement's `run` is modelled as a single engine-operation request
(an `Action`).  JavaScript exceptions thrown out of a statement's `run` are
modelled by the `Option Err` component returned by `runAction`; the engine's
promise settlement (resolve/reject, first settlement wins) is the `result`
field.  Ghost instrumentation (`steps`, `visited`, `output`, `scheduled`)
records how many statement `run` operations executed, which line numbers they
ran at, console writes, and whether a timer resumption was scheduled; no
engine operation reads these fields, so they do not affect behaviour.
-/

namespace PgBasic

/-- A runtime value: JavaScript number / string / boolean, or a `BasicArray`
(an object mapping subscripts to values), as stored in `this.vars`. -/
inductive Value : Type where
  | num (n : Int)
  | str (s : String)
  | bool (b : Bool)
  | arr (entries : List (Int × Value))

/-- JavaScript truthiness of a stored `Value` (a `BasicArray` object is always
truthy). -/
def Value.truthy : Value → Bool
  | .num n => n != 0
  | .str s => s != ""
  | .bool b => b
  | .arr _ => true

/-- Errors a run can end with: `ParseError` and `RuntimeError` from
src/errors.js (both carry the line number), and a raw JavaScript `TypeError`
(thrown e.g. when `loopJump` reads a property of `undefined`). -/
inductive Err : Type where
  | parseError (lineno : Int) (msg : String)
  | runtimeError (lineno : Int) (msg : String)
  | jsTypeError (msg : String)

/-- A single engine-operation request made by a statement node's `run(engine)`
callback.  Statement nodes are produced by the external parser; each kind of
statement calls one engine operation (`noop` covers statements that only read
state or write to external sinks we do not track). -/
inductive Action : Type where
  | noop
  | print (s : String)
  | setVar (v : String) (val : Value)
  | setArray (v : String) (sub : Int) (val : Value)
  | arrayDecl (v : String)
  | gotoLine (l : Int)
  | gosub (l : Int)
  | ret
  | loopStart (v : String) (init increment max : Int)
  | loopJump (v : String)
  | pause (millis : Nat)
  | halt

/-- A parsed statement node: its `lineno` plus the engine operation its
`run(engine)` performs. -/
structure Stmt : Type where
  lineno : Int
  action : Action

/-- Loop descriptor stored in `this.loops[variable]` by `loopStart`:
`{variable, value, increment, max, lineno}` where `lineno` is the resume
line (the line following the loop-start statement). -/
structure LoopDesc : Type where
  varName : String
  value : Int
  increment : Int
  max : Int
  lineno : Int

/-- The engine state: the mutable fields of the `Basic` instance, plus
`result` (the promise settlement: `none` = pending, `some none` = resolved
with success, `some (some e)` = rejected with `e`), `scheduled` (a pending
`setTimeout` resumption delay), and ghost instrumentation `steps` (count of
statement `run` invocations), `visited` (linenos at which statements ran) and
`output` (console writes). -/
structure EngineState : Type where
  vars : List (String × Value) := []
  lineno : Int := -1
  program : List Stmt := []
  loops : List (String × LoopDesc) := []
  stack : List Int := []
  jumped : Bool := false
  delay : Option Nat := none
  halted : Bool := false
  ended : Bool := false
  result : Option (Option Err) := none
  scheduled : Option Nat := none
  steps : Nat := 0
  visited : List Int := []
  output : List String := []

/-- Association-list update modelling JavaScript object property assignment:
the binding for `k` is replaced (only `List.lookup`-visibility matters). -/
def alUpdate {β : Type} (l : List (String × β)) (k : String) (v : β) :
    List (String × β) :=
  (k, v) :: l.filter (fun p => p.1 ≠ k)

/-- Association-list update keyed by `Int` (array subscripts). -/
def alUpdateInt {β : Type} (l : List (Int × β)) (k : Int) (v : β) :
    List (Int × β) :=
  (k, v) :: l.filter (fun p => p.1 ≠ k)

/-- The `end(error)`: mark the run ended and settle the promise (`resolve()` when
`e = none`, `reject(error)` otherwise).  A promise settles only once: a
second call leaves `result` unchanged. -/
def endProg (e : Option Err) (s : EngineState) : EngineState :=
  { s with ended := true,
           result := match s.result with
                     | none => some e
                     | some r => some r }

/-- The `set(vari, value)`: `this.vars[vari] = value`. -/
def setOp (v : String) (val : Value) (s : EngineState) : EngineState :=
  { s with vars := alUpdate s.vars v val }

/-- The `get(vari)`: `this.vars[vari] || 0` — a falsy stored value (and an
unset variable) reads as the number `0`. -/
def getOp (s : EngineState) (v : String) : Value :=
  match s.vars.lookup v with
  | none => .num 0
  | some val => if val.truthy then val else .num 0

/-- Message of the `RuntimeError` raised by `setArray` on a non-array. -/
def notArrayMsg (v : String) : String :=
  v ++ " is not an array, did you call ARRAY?"

/-- The `setArray(vari, sub, value)`: type-checks that the variable currently
holds a `BasicArray`; otherwise `this.end(new RuntimeError(...))`. -/
def setArrayOp (v : String) (sub : Int) (val : Value) (s : EngineState) :
    EngineState :=
  match s.vars.lookup v with
  | some (.arr m) =>
    { s with vars := alUpdate s.vars v (.arr (alUpdateInt m sub val)) }
  | _ => endProg (some (.runtimeError s.lineno (notArrayMsg v))) s

/-- The `array(name)`: `this.vars[name] = new BasicArray()`. -/
def arrayOp (v : String) (s : EngineState) : EngineState :=
  { s with vars := alUpdate s.vars v (.arr []) }

/-- The `goto(lineno)`: set the cursor and the `jumped` flag. -/
def gotoOp (l : Int) (s : EngineState) : EngineState :=
  { s with lineno := l, jumped := true }

/-- The `pause(millis)`: `this.delay = millis`. -/
def pauseOp (millis : Nat) (s : EngineState) : EngineState :=
  { s with delay := some millis }

/-- The `halt()`: `this.halted = true`. -/
def haltOp (s : EngineState) : EngineState :=
  { s with halted := true }

/-- The `getCurLine()`: first program entry whose `lineno` equals the cursor. -/
def getCurLine (s : EngineState) : Option Stmt :=
  s.program.find? (fun st => st.lineno == s.lineno)

/-- The `getNextLine()`: `this.program[this.program.indexOf(this.getCurLine()) + 1]`.
`find?`/`findIdx?` locate the same (first) matching element, so the JS
`indexOf` of the found node is `findIdx?`; when the cursor matches no line,
`indexOf(undefined)` is `-1` and the expression yields `program[0]`. -/
def getNextLine (s : EngineState) : Option Stmt :=
  match s.program.findIdx? (fun st => st.lineno == s.lineno) with
  | none => s.program[0]?
  | some i => s.program[i + 1]?

/-- The `loopStart({variable, value, increment, max})`: sets the loop variable to
its initial value, then captures the next line as the resume point; with no
next line the run ends (resolved, success) and no descriptor is stored. -/
def loopStartOp (v : String) (init increment max : Int) (s : EngineState) :
    EngineState :=
  let s1 := setOp v (.num init) s
  match getNextLine s1 with
  | none => endProg none s1
  | some next =>
    { s1 with loops := alUpdate s1.loops v ⟨v, init, increment, max, next.lineno⟩ }

/-- Message of the JavaScript `TypeError` thrown when `loopJump` dereferences
`this.loops[name]` and it is `undefined`. -/
def unknownLoopMsg : String :=
  "Cannot read properties of undefined (reading value)"

/-- The `loopJump(name)`: advance the loop value by its increment, write it to
the environment, and jump to the resume line unless `value >= max`.  An
unknown loop name makes `loop.value += loop.increment` throw a `TypeError`
before any state change, modelled by the `some` error component. -/
def loopJumpOp (name : String) (s : EngineState) :
    EngineState × Option Err :=
  match s.loops.lookup name with
  | none => (s, some (.jsTypeError unknownLoopMsg))
  | some loop =>
    let newVal := loop.value + loop.increment
    let s1 := { s with loops := alUpdate s.loops name { loop with value := newVal } }
    let s2 := setOp loop.varName (.num newVal) s1
    if newVal ≥ loop.max then (s2, none)
    else (gotoOp loop.lineno s2, none)

/-- The `gosub(lineno)`: push the return address — the line after the current one,
or `this.lineno + 1` when there is none — then `goto(lineno)`. -/
def gosubOp (l : Int) (s : EngineState) : EngineState :=
  let addr := match getNextLine s with
              | some next => next.lineno
              | none => s.lineno + 1
  gotoOp l { s with stack := addr :: s.stack }

/-- Message of the `RuntimeError` raised by `return()` on an empty stack. -/
def emptyStackMsg : String :=
  "There are no function calls to return from 🤷"

/-- The `return()`: pop the call stack and `goto` the popped line; an empty stack
ends the run with a `RuntimeError`. -/
def retOp (s : EngineState) : EngineState :=
  match s.stack with
  | [] => endProg (some (.runtimeError s.lineno emptyStackMsg)) s
  | l :: rest => gotoOp l { s with stack := rest }

/-- Dispatch of a statement node's `run(engine)` to the engine operation it
requests; the `Option Err` component is an exception propagating out of the
statement (only `loopJump` can throw here). -/
def runAction : Action → EngineState → EngineState × Option Err
  | .noop, s => (s, none)
  | .print str, s => ({ s with output := s.output ++ [str] }, none)
  | .setVar v val, s => (setOp v val s, none)
  | .setArray v sub val, s => (setArrayOp v sub val s, none)
  | .arrayDecl v, s => (arrayOp v s, none)
  | .gotoLine l, s => (gotoOp l s, none)
  | .gosub l, s => (gosubOp l s, none)
  | .ret, s => (retOp s, none)
  | .loopStart v init inc mx, s => (loopStartOp v init inc mx s, none)
  | .loopJump v, s => loopJumpOp v s
  | .pause ms, s => (pauseOp ms s, none)
  | .halt, s => (haltOp s, none)

/-- Message of the `RuntimeError` raised when the cursor matches no line. -/
def cannotFindMsg (l : Int) : String :=
  "Cannot find line " ++ toString l ++ " 🤦‍♂️"

/-- The `step()`: locate the statement at the cursor (not found ends the run with
a `RuntimeError`), then execute its `run`, catching any thrown error into
`this.end(e)`.  The ghost fields `steps`/`visited` record that a statement's
`run` was invoked. -/
def step (s : EngineState) : EngineState :=
  match getCurLine s with
  | none => endProg (some (.runtimeError s.lineno (cannotFindMsg s.lineno))) s
  | some node =>
    let s1 := { s with steps := s.steps + 1, visited := s.visited ++ [node.lineno] }
    match runAction node.action s1 with
    | (s2, none) => s2
    | (s2, some e) => endProg (some e) s2

/-- Lines 75–85 of `execute()`: after a step, either consume the `jumped`
flag, or advance the cursor to the next line in program order; `none` means
there was no next line (the loop returns `this.end()`). -/
def advance (s : EngineState) : Option EngineState :=
  if s.jumped then some { s with jumped := false }
  else
    match getNextLine s with
    | none => none
    | some next => some { s with lineno := next.lineno }

/-- The body of `execute()`'s `while (true)` loop, with explicit fuel (the
theorems always supply enough fuel, so running out of it never models the
program).  A pending `delay` schedules a `setTimeout` resumption and returns;
a pending `halted` flag just returns. -/
def executeLoop : Nat → EngineState → EngineState
  | 0, s => s
  | n + 1, s =>
    let s1 := step s
    if s1.ended then s1
    else
      match advance s1 with
      | none => endProg none s1
      | some s2 =>
        match s2.delay with
        | some d => { s2 with delay := none, scheduled := some d }
        | none =>
          if s2.halted then s2
          else executeLoop n s2

/-- The `execute()`: clears `halted`, then runs the loop. -/
def execute (fuel : Nat) (s : EngineState) : EngineState :=
  executeLoop fuel { s with halted := false }

/-- Message of the `ParseError` raised on a repeated line number. -/
def dupMsg (l : Int) : String :=
  "Line with number " ++ toString l ++ " repeated"

/-- The duplicate-line check of `run` (lines 53–58): a `forEach` over the
sorted program with a `seen` set.  The `return this.end(...)` inside the
callback only leaves the callback, so the traversal — and, crucially, the
rest of `run` — continues after a duplicate is reported. -/
def dupCheck (s : EngineState) (seen : List Int) : List Stmt → EngineState
  | [] => s
  | st :: rest =>
    if st.lineno ∈ seen then
      dupCheck (endProg (some (.parseError st.lineno (dupMsg st.lineno))) s) seen rest
    else
      dupCheck s (st.lineno :: seen) rest

/-- Stable insertion of a statement into a lineno-sorted list: the new
statement lands after any already-present statement with the same lineno. -/
def insertStmt (st : Stmt) : List Stmt → List Stmt
  | [] => [st]
  | t :: ts => if st.lineno < t.lineno then st :: t :: ts else t :: insertStmt st ts

/-- The `program.sort((a, b) => a.lineno - b.lineno)` (JavaScript sort is stable;
inserting the statements left to right keeps input order on equal linenos). -/
def sortProgram (l : List Stmt) : List Stmt :=
  l.foldl (fun acc st => insertStmt st acc) []

/-- The `run(program)`, starting from the parsed statement list (parsing each raw
line is the external parser's job).  Sorts by lineno, runs the duplicate
check, handles the empty program, sets the cursor to the first line and
enters `execute()`.  Note: after the duplicate check there is no `ended`
re-check (the check at line 49 precedes it), so `execute()` is entered even
when a duplicate already ended the run. -/
def run (prog : List Stmt) (fuel : Nat) : EngineState :=
  let s0 : EngineState := { program := sortProgram prog, ended := false }
  let s1 := dupCheck s0 [] s0.program
  match s1.program with
  | [] => endProg none s1
  | first :: _ =>
    execute fuel { s1 with lineno := first.lineno }

/-! ## Helper lemmas about cursor lookup on sorted programs -/

/-- The program invariant established by loading: strictly ascending (hence
unique) line numbers. -/
def SortedProg (p : List Stmt) : Prop :=
  p.Pairwise (fun a b => a.lineno < b.lineno)

theorem findIdx?_sorted_aux (l : List Stmt)
    (hsort : l.Pairwise (fun a b => a.lineno < b.lineno)) :
    ∀ (i k : Nat) (st : Stmt), l[i]? = some st →
      l.findIdx? (fun x => x.lineno == st.lineno) k = some (i + k) := by
  induction l with
  | nil => intro i k st h; simp at h
  | cons a t ih =>
    intro i k st h
    rcases List.pairwise_cons.mp hsort with ⟨ha, ht⟩
    cases i with
    | zero =>
      simp at h
      subst h
      rw [List.findIdx?_cons]
      simp
    | succ j =>
      simp at h
      have hmem : st ∈ t := List.getElem?_mem h
      have hlt : a.lineno < st.lineno := ha st hmem
      have hne : (a.lineno == st.lineno) = false := by
        simp only [beq_eq_false_iff_ne, ne_eq]
        omega
      rw [List.findIdx?_cons, hne]
      simp only [Bool.false_eq_true, if_false]
      have := ih ht j (k + 1) st h
      rw [this]
      congr 1
      omega

theorem find?_sorted (l : List Stmt)
    (hsort : l.Pairwise (fun a b => a.lineno < b.lineno)) :
    ∀ (i : Nat) (st : Stmt), l[i]? = some st →
      l.find? (fun x => x.lineno == st.lineno) = some st := by
  induction l with
  | nil => intro i st h; simp at h
  | cons a t ih =>
    intro i st h
    rcases List.pairwise_cons.mp hsort with ⟨ha, ht⟩
    cases i with
    | zero =>
      simp at h
      subst h
      exact List.find?_cons_of_pos _ (by simp)
    | succ j =>
      simp at h
      have hmem : st ∈ t := List.getElem?_mem h
      have hlt : a.lineno < st.lineno := ha st hmem
      rw [List.find?_cons_of_neg _ (by simp; omega)]
      exact ih ht j st h

/-- On a sorted program with the cursor at the statement of index `i`,
`getCurLine` finds exactly that statement. -/
theorem getCurLine_sorted (s : EngineState) (i : Nat) (st : Stmt)
    (hsort : SortedProg s.program) (hget : s.program[i]? = some st)
    (hcur : s.lineno = st.lineno) :
    getCurLine s = some st := by
  unfold getCurLine
  rw [hcur]
  exact find?_sorted s.program hsort i st hget

/-- On a sorted program with the cursor at the statement of index `i`,
`getNextLine` is the statement at index `i + 1` (the successor in program
order), if any. -/
theorem getNextLine_sorted (s : EngineState) (i : Nat) (st : Stmt)
    (hsort : SortedProg s.program) (hget : s.program[i]? = some st)
    (hcur : s.lineno = st.lineno) :
    getNextLine s = s.program[i + 1]? := by
  unfold getNextLine
  rw [hcur, findIdx?_sorted_aux s.program hsort i 0 st hget]

/-- The `getCurLine` depends only on the program and the cursor. -/
theorem getCurLine_eq_of (s s' : EngineState) (hp : s'.program = s.program)
    (hl : s'.lineno = s.lineno) : getCurLine s' = getCurLine s := by
  unfold getCurLine
  rw [hp, hl]

/-- The `getNextLine` depends only on the program and the cursor. -/
theorem getNextLine_eq_of (s s' : EngineState) (hp : s'.program = s.program)
    (hl : s'.lineno = s.lineno) : getNextLine s' = getNextLine s := by
  unfold getNextLine
  rw [hp, hl]

/-- Adjacent entries of a sorted program have strictly increasing linenos. -/
theorem sorted_adjacent_lt (p : List Stmt) (hsort : SortedProg p)
    (i : Nat) (st next : Stmt) (hi : p[i]? = some st)
    (hnext : p[i + 1]? = some next) : st.lineno < next.lineno := by
  have hilen : i < p.length := by
    by_contra hge
    rw [List.getElem?_eq_none (by omega)] at hi
    exact Option.noConfusion hi
  have hjlen : i + 1 < p.length := by
    by_contra hge
    rw [List.getElem?_eq_none (by omega)] at hnext
    exact Option.noConfusion hnext
  have := List.pairwise_iff_getElem.mp hsort i (i + 1) hilen hjlen (by omega)
  rw [List.getElem?_eq_getElem hilen] at hi
  rw [List.getElem?_eq_getElem hjlen] at hnext
  cases hi; cases hnext
  exact this

/-! ## C3: loop advance and boundary rule -/

/-- C3: for a loop descriptor registered for `name` (as `loopStart` creates
it), `loopJump name` does not throw, adds the increment to the stored loop
value, writes the new value to the variable environment, jumps to the
descriptor's resume line exactly when the new value is strictly below `max`,
and falls through (cursor and `jumped` flag untouched) exactly when the new
value is at least `max`. -/
theorem loopJump_advance_boundary (s : EngineState) (name : String)
    (loop : LoopDesc) (h : s.loops.lookup name = some loop) :
    (loopJumpOp name s).2 = none ∧
    ((loopJumpOp name s).1.loops.lookup name =
       some { loop with value := loop.value + loop.increment }) ∧
    getOp (loopJumpOp name s).1 loop.varName = .num (loop.value + loop.increment) ∧
    (loop.value + loop.increment < loop.max →
       (loopJumpOp name s).1.jumped = true ∧
       (loopJumpOp name s).1.lineno = loop.lineno) ∧
    (loop.max ≤ loop.value + loop.increment →
       (loopJumpOp name s).1.jumped = s.jumped ∧
       (loopJumpOp name s).1.lineno = s.lineno) := by
  unfold loopJumpOp
  rw [h]
  simp only []
  refine ⟨?_, ?_, ?_, ?_, ?_⟩
  · split <;> rfl
  · split <;>
    · simp [gotoOp, setOp, alUpdate, List.lookup]
  · have hget : ∀ t : EngineState,
        t.vars = alUpdate s.vars loop.varName (.num (loop.value + loop.increment)) →
        getOp t loop.varName = .num (loop.value + loop.increment) := by
      intro t ht
      unfold getOp
      rw [ht]
      simp [alUpdate, List.lookup, Value.truthy]
      intro h0
      simp [h0]
    split
    · exact hget _ (by simp [setOp, alUpdate])
    · exact hget _ (by simp [gotoOp, setOp, alUpdate])
  · intro hlt
    rw [if_neg (by omega)]
    exact ⟨rfl, rfl⟩
  · intro hge
    rw [if_pos (by omega)]
    exact ⟨rfl, rfl⟩

/-- Concrete loop states for the spec's worked example
(`initial = 0, increment = 1, max = 3`, resume line 20, loop-jump at 30),
the loop value being `v` when the jump statement runs. -/
def loopDemoState (v : Int) : EngineState :=
  { loops := [("I", ⟨"I", v, 1, 3, 20⟩)], lineno := 30 }

/-- C3 witness: on the spec's example the first two jumps (new values 1, 2)
resume at line 20 and the third (new value 3) falls through at line 30. -/
theorem loopJump_advance_boundary_witness :
    ((loopJumpOp "I" (loopDemoState 0)).1.jumped = true ∧
       (loopJumpOp "I" (loopDemoState 0)).1.lineno = 20) ∧
    ((loopJumpOp "I" (loopDemoState 1)).1.jumped = true ∧
       (loopJumpOp "I" (loopDemoState 1)).1.lineno = 20) ∧
    ((loopJumpOp "I" (loopDemoState 2)).1.jumped = false ∧
       (loopJumpOp "I" (loopDemoState 2)).1.lineno = 30 ∧
       getOp (loopJumpOp "I" (loopDemoState 2)).1 "I" = .num 3) := by
  refine ⟨?_, ?_, ?_⟩
  · exact (loopJump_advance_boundary (loopDemoState 0) "I" ⟨"I", 0, 1, 3, 20⟩
      rfl).2.2.2.1 (by decide)
  · exact (loopJump_advance_boundary (loopDemoState 1) "I" ⟨"I", 1, 1, 3, 20⟩
      rfl).2.2.2.1 (by decide)
  · have h := loopJump_advance_boundary (loopDemoState 2) "I" ⟨"I", 2, 1, 3, 20⟩ rfl
    exact ⟨(h.2.2.2.2 (by decide)).1, (h.2.2.2.2 (by decide)).2, h.2.2.1⟩

/-! ## C5: gosub pushes the following line; return resumes there -/

/-- C5: `gosub target` from the statement at index `i` pushes the lineno of
the statement at index `i + 1` (the one following in program order), or the
current lineno plus one when there is none, and jumps to `target`; an
immediately following `return` pops that address and transfers control there
— which is never the call statement's own line. -/
theorem gosub_return_to_following_line (s : EngineState) (target : Int)
    (i : Nat) (st : Stmt)
    (hsort : SortedProg s.program) (hget : s.program[i]? = some st)
    (hcur : s.lineno = st.lineno) :
    (gosubOp target s).stack =
      (match s.program[i + 1]? with
       | some next => next.lineno
       | none => s.lineno + 1) :: s.stack ∧
    (gosubOp target s).lineno = target ∧
    (gosubOp target s).jumped = true ∧
    (retOp (gosubOp target s)).lineno =
      (match s.program[i + 1]? with
       | some next => next.lineno
       | none => s.lineno + 1) ∧
    (retOp (gosubOp target s)).stack = s.stack ∧
    (retOp (gosubOp target s)).jumped = true ∧
    (retOp (gosubOp target s)).lineno ≠ s.lineno := by
  have hnl : getNextLine s = s.program[i + 1]? :=
    getNextLine_sorted s i st hsort hget hcur
  unfold gosubOp
  rw [hnl]
  cases hnext : s.program[i + 1]? with
  | none =>
    refine ⟨rfl, rfl, rfl, rfl, rfl, rfl, ?_⟩
    simp [retOp, gotoOp]
  | some next =>
    have hlt : st.lineno < next.lineno :=
      sorted_adjacent_lt s.program hsort i st next hget hnext
    refine ⟨rfl, rfl, rfl, rfl, rfl, rfl, ?_⟩
    simp [retOp, gotoOp]
    omega

/-- Program used by the C5 witness: a call at line 10, its successor at
line 20, and the subroutine at line 100. -/
def gosubDemo : EngineState :=
  { program := [⟨10, .gosub 100⟩, ⟨20, .noop⟩, ⟨100, .ret⟩], lineno := 10 }

/-- C5 witness: calling from line 10 pushes 20 (not 11) and returning lands
on 20, not on 10. -/
theorem gosub_return_to_following_line_witness :
    (gosubOp 100 gosubDemo).stack = 20 :: gosubDemo.stack ∧
    (gosubOp 100 gosubDemo).lineno = 100 ∧
    (retOp (gosubOp 100 gosubDemo)).lineno = 20 ∧
    (retOp (gosubOp 100 gosubDemo)).lineno ≠ gosubDemo.lineno := by
  have h := gosub_return_to_following_line gosubDemo 100 0 ⟨10, .gosub 100⟩
    (by unfold SortedProg gosubDemo; decide) rfl rfl
  exact ⟨h.1, h.2.1, h.2.2.2.1, h.2.2.2.2.2.2⟩

/-! ## C6: return with an empty call stack rejects the run -/

/-- C6: when the statement at the cursor performs `return` with an empty call
stack, the run is rejected with the `RuntimeError` about having no call to
return from, the run is ended, and no further statement executes (exactly one
statement `run` happened). -/
theorem return_empty_stack_rejects (s : EngineState) (n : Nat) (L : Int)
    (hcur : getCurLine s = some ⟨L, .ret⟩) (hstack : s.stack = [])
    (hres : s.result = none) :
    (executeLoop (n + 1) s).result =
      some (some (.runtimeError s.lineno emptyStackMsg)) ∧
    (executeLoop (n + 1) s).ended = true ∧
    (executeLoop (n + 1) s).steps = s.steps + 1 := by
  have hstep : step s = endProg (some (.runtimeError s.lineno emptyStackMsg))
      { s with steps := s.steps + 1, visited := s.visited ++ [L] } := by
    unfold step
    rw [hcur]
    simp only [runAction]
    unfold retOp
    simp [hstack]
  unfold executeLoop
  simp only [hstep, endProg, hres]
  simp

/-- C6 witness: a one-line program whose only statement is a bare RETURN. -/
theorem return_empty_stack_rejects_witness :
    (executeLoop 1 { program := [⟨10, .ret⟩], lineno := 10 }).result =
      some (some (.runtimeError 10 emptyStackMsg)) ∧
    (executeLoop 1 { program := [⟨10, .ret⟩], lineno := 10 }).steps = 1 := by
  have h := return_empty_stack_rejects
    { program := [⟨10, .ret⟩], lineno := 10 } 0 10 rfl rfl rfl
  exact ⟨h.1, h.2.2⟩

/-! ## C7: indexed writes require a declared array -/

/-- Reading subscript `sub` of variable `v` the way a later statement or
expression does: via the stored `BasicArray` object's property. -/
def readIndex (s : EngineState) (v : String) (sub : Int) : Option Value :=
  match getOp s v with
  | .arr m => m.lookup sub
  | _ => none

/-- C7: with the cursor on a statement writing index `sub` of a variable `v`
that does not currently hold an array, the run is rejected with the
`RuntimeError` asking whether ARRAY was called, and no further statement
executes; by contrast, declaring `v` first makes the same indexed write
succeed (no end, promise untouched) and a later read of that index returns
the written value. -/
theorem setArray_declare_first (s : EngineState) (n : Nat) (L : Int)
    (v : String) (sub : Int) (val : Value)
    (hnotarr : ∀ m, s.vars.lookup v ≠ some (.arr m))
    (hcur : getCurLine s = some ⟨L, .setArray v sub val⟩)
    (hres : s.result = none) :
    ((executeLoop (n + 1) s).result =
       some (some (.runtimeError s.lineno (notArrayMsg v))) ∧
     (executeLoop (n + 1) s).ended = true ∧
     (executeLoop (n + 1) s).steps = s.steps + 1) ∧
    ((setArrayOp v sub val (arrayOp v s)).ended = s.ended ∧
     (setArrayOp v sub val (arrayOp v s)).result = s.result ∧
     readIndex (setArrayOp v sub val (arrayOp v s)) v sub = some val) := by
  constructor
  · have hsa : ∀ t : EngineState, t.vars = s.vars → t.lineno = s.lineno →
        t.result = s.result →
        setArrayOp v sub val t =
          { t with ended := true,
                   result := some (some (.runtimeError s.lineno (notArrayMsg v))) } := by
      intro t hv hl hr
      unfold setArrayOp
      rw [hv]
      cases hlk : s.vars.lookup v with
      | none => simp [endProg, hl, hr, hres, hv]
      | some w =>
        cases w with
        | arr m => exact absurd hlk (hnotarr m)
        | num x => simp [endProg, hl, hr, hres, hv]
        | str x => simp [endProg, hl, hr, hres, hv]
        | bool x => simp [endProg, hl, hr, hres, hv]
    have hstep : step s =
        { s with steps := s.steps + 1, visited := s.visited ++ [L],
                 ended := true,
                 result := some (some (.runtimeError s.lineno (notArrayMsg v))) } := by
      unfold step
      rw [hcur]
      simp only [runAction]
      rw [hsa { s with steps := s.steps + 1, visited := s.visited ++ [L] }
        rfl rfl rfl]
    unfold executeLoop
    simp only [hstep]
    simp
  · have harr : (arrayOp v s).vars.lookup v = some (.arr []) := by
      simp [arrayOp, alUpdate, List.lookup]
    refine ⟨?_, ?_, ?_⟩
    · unfold setArrayOp
      rw [harr]
      rfl
    · unfold setArrayOp
      rw [harr]
      rfl
    · unfold setArrayOp readIndex
      rw [harr]
      simp [getOp, arrayOp, alUpdate, alUpdateInt, List.lookup, Value.truthy]

/-- C7 witness: writing `A[1]` with `A` unset rejects the run; after ARRAY A
the same write stores a value readable back at index 1. -/
theorem setArray_declare_first_witness :
    ((executeLoop 1
        { program := [⟨10, .setArray "A" 1 (.num 7)⟩], lineno := 10 }).result =
       some (some (.runtimeError 10 (notArrayMsg "A"))) ∧
     (executeLoop 1
        { program := [⟨10, .setArray "A" 1 (.num 7)⟩], lineno := 10 }).steps = 1) ∧
    readIndex
      (setArrayOp "A" 1 (.num 7)
        (arrayOp "A" { program := [⟨10, .setArray "A" 1 (.num 7)⟩], lineno := 10 }))
      "A" 1 = some (.num 7) := by
  have h := setArray_declare_first
    { program := [⟨10, .setArray "A" 1 (.num 7)⟩], lineno := 10 } 0 10 "A" 1
    (.num 7) (by intro m hm; exact Option.noConfusion hm) rfl rfl
  exact ⟨⟨h.1.1, h.1.2.2⟩, h.2.2.2⟩

/-! ## C8: loopStart on the final line ends the run successfully -/

/-- C8: when the final statement of the program performs `loopStart`, the run
resolves with success (normal termination, not an error), the loop variable
has been set to its initial value, no loop descriptor is registered (the body
never iterates), and no further statement executes. -/
theorem loopStart_final_line_success (s : EngineState) (n : Nat)
    (v : String) (init inc mx : Int) (i : Nat) (L : Int)
    (hsort : SortedProg s.program)
    (hget : s.program[i]? = some ⟨L, .loopStart v init inc mx⟩)
    (hcur : s.lineno = L)
    (hlast : s.program[i + 1]? = none)
    (hres : s.result = none) :
    (executeLoop (n + 1) s).result = some none ∧
    (executeLoop (n + 1) s).ended = true ∧
    (executeLoop (n + 1) s).steps = s.steps + 1 ∧
    getOp (executeLoop (n + 1) s) v = .num init ∧
    (executeLoop (n + 1) s).loops = s.loops := by
  have hcl : getCurLine s = some ⟨L, .loopStart v init inc mx⟩ :=
    getCurLine_sorted s i ⟨L, .loopStart v init inc mx⟩ hsort hget hcur
  have hstep : step s =
      endProg none
        (setOp v (.num init)
          { s with steps := s.steps + 1, visited := s.visited ++ [L] }) := by
    unfold step
    rw [hcl]
    simp only [runAction]
    unfold loopStartOp
    dsimp only
    have hnl : getNextLine
        (setOp v (.num init)
          { s with steps := s.steps + 1, visited := s.visited ++ [L] }) =
        getNextLine s :=
      getNextLine_eq_of s _ rfl rfl
    rw [hnl, getNextLine_sorted s i ⟨L, .loopStart v init inc mx⟩ hsort hget hcur,
      hlast]
  have hgo : ∀ t : EngineState, t.vars = alUpdate s.vars v (.num init) →
      getOp t v = .num init := by
    intro t ht
    unfold getOp
    rw [ht]
    simp [alUpdate, List.lookup, Value.truthy]
    intro h0
    simp [h0]
  unfold executeLoop
  simp only [hstep, endProg, setOp, hres]
  refine ⟨by simp, by simp, by simp, ?_, by simp⟩
  simp only [if_true]
  exact hgo _ rfl

/-- C8 witness: a one-line program whose only statement is the loop start. -/
theorem loopStart_final_line_success_witness :
    (executeLoop 1
      { program := [⟨10, .loopStart "I" 0 1 3⟩], lineno := 10 }).result =
      some none ∧
    getOp (executeLoop 1
      { program := [⟨10, .loopStart "I" 0 1 3⟩], lineno := 10 }) "I" = .num 0 ∧
    (executeLoop 1
      { program := [⟨10, .loopStart "I" 0 1 3⟩], lineno := 10 }).loops = [] := by
  have h := loopStart_final_line_success
    { program := [⟨10, .loopStart "I" 0 1 3⟩], lineno := 10 } 0 "I" 0 1 3 0 10
    (by unfold SortedProg; decide) rfl rfl rfl rfl
  exact ⟨h.1, h.2.2.2.1, h.2.2.2.2⟩

/-! ## C9: loopJump on an unknown loop variable fails the run -/

/-- C9: when the statement at the cursor performs `loopJump` for a variable
with no registered loop descriptor, the dereference of the missing descriptor
throws, the run is rejected with that error (it does not silently continue),
and no further statement executes. -/
theorem loopJump_unknown_rejects (s : EngineState) (n : Nat) (L : Int)
    (name : String)
    (hcur : getCurLine s = some ⟨L, .loopJump name⟩)
    (hloop : s.loops.lookup name = none)
    (hres : s.result = none) :
    (executeLoop (n + 1) s).result = some (some (.jsTypeError unknownLoopMsg)) ∧
    (executeLoop (n + 1) s).ended = true ∧
    (executeLoop (n + 1) s).steps = s.steps + 1 := by
  have hstep : step s = endProg (some (.jsTypeError unknownLoopMsg))
      { s with steps := s.steps + 1, visited := s.visited ++ [L] } := by
    unfold step
    rw [hcur]
    simp only [runAction]
    unfold loopJumpOp
    simp [hloop]
  unfold executeLoop
  simp only [hstep, endProg, hres]
  simp

/-- C9 witness: a NEXT with no matching FOR, as the only statement. -/
theorem loopJump_unknown_rejects_witness :
    (executeLoop 1 { program := [⟨10, .loopJump "I"⟩], lineno := 10 }).result =
      some (some (.jsTypeError unknownLoopMsg)) ∧
    (executeLoop 1 { program := [⟨10, .loopJump "I"⟩], lineno := 10 }).steps = 1 := by
  have h := loopJump_unknown_rejects
    { program := [⟨10, .loopJump "I"⟩], lineno := 10 } 0 10 "I" rfl rfl rfl
  exact ⟨h.1, h.2.2⟩

/-! ## C10: falsy stored values read back as zero -/

/-- C10: `get` returns the number `0` not only for unset variables but for
any falsy stored value: after storing the empty string, the number `0`, or
`false`, `get` reads `0`; and no read can ever produce the empty string. -/
theorem get_falsy_zero (s : EngineState) (name other : String) :
    getOp (setOp name (.str "") s) name = .num 0 ∧
    getOp (setOp name (.num 0) s) name = .num 0 ∧
    getOp (setOp name (.bool false) s) name = .num 0 ∧
    (s.vars.lookup other = none → getOp s other = .num 0) ∧
    getOp s other ≠ .str "" := by
  refine ⟨?_, ?_, ?_, ?_, ?_⟩
  · simp [getOp, setOp, alUpdate, List.lookup, Value.truthy]
  · simp [getOp, setOp, alUpdate, List.lookup, Value.truthy]
  · simp [getOp, setOp, alUpdate, List.lookup, Value.truthy]
  · intro h; simp [getOp, h]
  · unfold getOp
    cases hl : s.vars.lookup other with
    | none => simp
    | some val =>
      cases val with
      | num n => by_cases h0 : n = 0 <;> simp [Value.truthy, h0]
      | str t => by_cases h0 : t = "" <;> simp [Value.truthy, h0]
      | bool b => cases b <;> simp [Value.truthy]
      | arr m => simp [Value.truthy]

/-- C10 witness: concrete reads on a one-variable environment. -/
theorem get_falsy_zero_witness :
    getOp (setOp "X" (.str "") {}) "X" = .num 0 ∧
    getOp ({} : EngineState) "Y" = .num 0 := by
  have h := get_falsy_zero ({} : EngineState) "X" "Y"
  exact ⟨h.1, h.2.2.2.1 rfl⟩

/-! ## One-unfolding lemmas for the run loop -/

/-- Definitional unfolding of one iteration of the run loop. -/
theorem executeLoop_succ_def (n : Nat) (s : EngineState) :
    executeLoop (n + 1) s =
      (let s1 := step s
       if s1.ended then s1
       else
         match advance s1 with
         | none => endProg none s1
         | some s2 =>
           match s2.delay with
           | some d => { s2 with delay := none, scheduled := some d }
           | none =>
             if s2.halted then s2
             else executeLoop n s2) := rfl

/-- One iteration of the run loop when the step neither ended the run nor
jumped: either the program has no next line (the loop returns `this.end()`),
or the cursor advances and the loop pauses, stops on `halted`, or recurses. -/
theorem executeLoop_succ_of_step (n : Nat) (s t : EngineState)
    (hstep : step s = t) (hended : t.ended = false)
    (hjump : t.jumped = false) :
    executeLoop (n + 1) s =
      (match getNextLine t with
       | none => endProg none t
       | some next =>
         match t.delay with
         | some d => { t with lineno := next.lineno, delay := none,
                              scheduled := some d }
         | none =>
           if t.halted then { t with lineno := next.lineno }
           else executeLoop n { t with lineno := next.lineno }) := by
  rw [executeLoop_succ_def]
  simp only [hstep]
  rw [if_neg (by simp [hended])]
  unfold advance
  rw [if_neg (by simp [hjump])]
  cases getNextLine t with
  | none => rfl
  | some next => rfl

/-- The `executeLoop_succ_of_step` with the next-line lookup transported to the
pre-step state (a step that does not jump keeps program and cursor). -/
theorem executeLoop_succ_nojump (n : Nat) (s t : EngineState)
    (hstep : step s = t) (hended : t.ended = false)
    (hjump : t.jumped = false)
    (hprog : t.program = s.program) (hline : t.lineno = s.lineno) :
    executeLoop (n + 1) s =
      (match getNextLine s with
       | none => endProg none t
       | some next =>
         match t.delay with
         | some d => { t with lineno := next.lineno, delay := none,
                              scheduled := some d }
         | none =>
           if t.halted then { t with lineno := next.lineno }
           else executeLoop n { t with lineno := next.lineno }) := by
  rw [executeLoop_succ_of_step n s t hstep hended hjump,
    getNextLine_eq_of s t hprog hline]

/-! ## C4: sequential advance follows program order -/

/-- Statements whose `run` neither jumps, pauses, halts, ends the run nor
throws: they leave every control field of the engine untouched. -/
def plainAction : Action → Bool
  | .noop => true
  | .print _ => true
  | .setVar _ _ => true
  | _ => false

/-- A step on a plain statement only performs its data effect: all control
fields are untouched and the ghost trace records the one execution. -/
theorem step_plain (s : EngineState) (st : Stmt)
    (hcl : getCurLine s = some st) (hplain : plainAction st.action = true) :
    (step s).program = s.program ∧ (step s).lineno = s.lineno ∧
    (step s).jumped = s.jumped ∧ (step s).ended = s.ended ∧
    (step s).delay = s.delay ∧ (step s).halted = s.halted ∧
    (step s).result = s.result ∧ (step s).steps = s.steps + 1 ∧
    (step s).visited = s.visited ++ [st.lineno] := by
  obtain ⟨L, act⟩ := st
  unfold step
  rw [hcl]
  cases act <;>
    first
      | exact ⟨rfl, rfl, rfl, rfl, rfl, rfl, rfl, rfl, rfl⟩
      | simp [plainAction] at hplain

/-- Run-loop induction for programs of plain statements: starting at index
`i` with enough fuel, the run resolves with success and visits exactly the
statements from `i` on, in program order. -/
theorem executeLoop_plain_aux :
    ∀ (fuel : Nat) (s : EngineState) (i : Nat) (st : Stmt),
      SortedProg s.program →
      (∀ u ∈ s.program, plainAction u.action = true) →
      s.program[i]? = some st → s.lineno = st.lineno →
      s.ended = false → s.jumped = false → s.delay = none →
      s.halted = false → s.result = none →
      s.program.length ≤ i + fuel →
      (executeLoop fuel s).result = some none ∧
      (executeLoop fuel s).visited =
        s.visited ++ (s.program.drop i).map Stmt.lineno := by
  intro fuel
  induction fuel with
  | zero =>
    intro s i st _ _ hget _ _ _ _ _ _ hlen
    have : i < s.program.length := by
      by_contra hge
      rw [List.getElem?_eq_none (by omega)] at hget
      exact Option.noConfusion hget
    omega
  | succ n ih =>
    intro s i st hsort hplain hget hcur hended hjump hdelay hhalt hres hlen
    have hcl : getCurLine s = some st := getCurLine_sorted s i st hsort hget hcur
    obtain ⟨hprog, hline, hjump2, hended2, hdelay2, hhalt2, hres2, hsteps2, hvis2⟩ :=
      step_plain s st hcl (hplain st (List.getElem?_mem hget))
    generalize ht : step s = t at hprog hline hjump2 hended2 hdelay2 hhalt2 hres2 hsteps2 hvis2
    have hkey := executeLoop_succ_nojump n s t ht
      (by rw [hended2, hended]) (by rw [hjump2, hjump]) hprog hline
    rw [hkey, getNextLine_sorted s i st hsort hget hcur]
    have hilen : i < s.program.length := by
      by_contra hge
      rw [List.getElem?_eq_none (by omega)] at hget
      exact Option.noConfusion hget
    have hsti : s.program[i] = st := by
      rw [List.getElem?_eq_getElem hilen] at hget
      exact Option.some.inj hget
    have hdrop : s.program.drop i = st :: s.program.drop (i + 1) := by
      rw [List.drop_eq_getElem_cons hilen, hsti]
    cases hnext : s.program[i + 1]? with
    | none =>
      have hlast : s.program.drop (i + 1) = [] := by
        apply List.drop_eq_nil_of_le
        by_contra hc
        push_neg at hc
        rw [List.getElem?_eq_getElem hc] at hnext
        exact Option.noConfusion hnext
      constructor
      · simp [endProg, hres2, hres]
      · simp [endProg, hvis2, hdrop, hlast]
    | some next =>
      dsimp only
      rw [hdelay2, hdelay]
      dsimp only
      rw [hhalt2, hhalt]
      simp only [Bool.false_eq_true, if_false]
      obtain ⟨hres', hvis'⟩ := ih
        { t with lineno := next.lineno, delay := none, halted := false }
        (i + 1) next
        (by dsimp only; rw [hprog]; exact hsort)
        (by dsimp only; rw [hprog]; exact hplain)
        (by dsimp only; rw [hprog]; exact hnext)
        rfl
        (by dsimp only; rw [hended2]; exact hended)
        (by dsimp only; rw [hjump2]; exact hjump)
        rfl
        rfl
        (by dsimp only; rw [hres2]; exact hres)
        (by dsimp only; rw [hprog]; omega)
      refine ⟨hres', ?_⟩
      rw [hvis']
      dsimp only
      rw [hvis2, hprog, hdrop]
      simp [List.append_assoc]

/-- C4: (a) after a step that did not set the `jumped` flag, the cursor
advance performed by the run loop moves to the statement at the next program
index — the successor in sorted program order, not lineno-plus-one — and
signals end-of-program (`none`, which the loop turns into a successful end)
exactly when there is no such statement; (b) consequently a program of
jump-free statements resolves with success after visiting its line numbers
in exactly ascending program order. -/
theorem advance_follows_program_order :
    (∀ (t : EngineState) (i : Nat) (st : Stmt),
        SortedProg t.program → t.program[i]? = some st →
        t.lineno = st.lineno → t.jumped = false →
        advance t = (match t.program[i + 1]? with
                     | some next => some { t with lineno := next.lineno }
                     | none => none)) ∧
    (∀ (s : EngineState) (fuel i : Nat) (st : Stmt),
        SortedProg s.program →
        (∀ u ∈ s.program, plainAction u.action = true) →
        s.program[i]? = some st → s.lineno = st.lineno →
        s.ended = false → s.jumped = false → s.delay = none →
        s.halted = false → s.result = none →
        s.program.length ≤ i + fuel →
        (executeLoop fuel s).result = some none ∧
        (executeLoop fuel s).visited =
          s.visited ++ (s.program.drop i).map Stmt.lineno ∧
        ((s.program.drop i).map Stmt.lineno).Pairwise (fun a b => a < b)) := by
  constructor
  · intro t i st hsort hget hcur hjump
    unfold advance
    rw [if_neg (by simp [hjump]), getNextLine_sorted t i st hsort hget hcur]
    cases t.program[i + 1]? <;> rfl
  · intro s fuel i st hsort hplain hget hcur hended hjump hdelay hhalt hres hlen
    obtain ⟨h1, h2⟩ := executeLoop_plain_aux fuel s i st hsort hplain hget hcur
      hended hjump hdelay hhalt hres hlen
    refine ⟨h1, h2, ?_⟩
    apply List.pairwise_map.mpr
    exact (hsort.sublist (List.drop_sublist i s.program))

/-- Program used by the C4 witness: three jump-free statements with sparse
line numbers 10, 25, 30. -/
def seqDemo : EngineState :=
  { program := [⟨10, .print "a"⟩, ⟨25, .print "b"⟩, ⟨30, .print "c"⟩],
    lineno := 10 }

/-- C4 witness: from line 10 the advance goes to line 25 (not 11), and the
full run resolves with success visiting 10, 25, 30 in order. -/
theorem advance_follows_program_order_witness :
    advance seqDemo = some { seqDemo with lineno := 25 } ∧
    (executeLoop 3 seqDemo).result = some none ∧
    (executeLoop 3 seqDemo).visited = [10, 25, 30] := by
  obtain ⟨hA, hB⟩ := advance_follows_program_order
  have ha := hA seqDemo 0 ⟨10, .print "a"⟩ (by unfold SortedProg seqDemo; decide)
    rfl rfl rfl
  have hb := hB seqDemo 3 0 ⟨10, .print "a"⟩ (by unfold SortedProg seqDemo; decide)
    (by decide) rfl rfl rfl rfl rfl rfl rfl (by decide)
  exact ⟨ha.trans rfl, hb.1, hb.2.1.trans rfl⟩

/-! ## C1: duplicate line numbers — rejection happens, but a statement runs

The duplicate check does reject the run with a `ParseError` naming the
repeated line number, but the `return this.end(...)` inside the `forEach`
callback only leaves the callback, and `run` re-checks `this.ended` only
after parsing (line 49), not after the duplicate check — so `execute()` is
still entered and the first statement's `run` operation executes once before
the `ended` flag stops the loop. -/

/-- C1 (code behaviour at the failing input): loading two `PRINT` statements
that both carry line 10 rejects the run with the `ParseError` naming line 10,
yet exactly one statement `run` executes and its console write happens. -/
theorem run_duplicate_line_rejects_but_still_executes :
    (run [⟨10, .print "A"⟩, ⟨10, .print "B"⟩] 5).result =
      some (some (.parseError 10 (dupMsg 10))) ∧
    (run [⟨10, .print "A"⟩, ⟨10, .print "B"⟩] 5).steps = 1 ∧
    (run [⟨10, .print "A"⟩, ⟨10, .print "B"⟩] 5).output = ["A"] :=
  ⟨rfl, rfl, rfl⟩

/-! ## C2: halt stops the loop but does not settle the promise -/

/-- C2 counterexample: a `halt` with a following line stops execution (one
statement ran, nothing scheduled) but leaves the run's promise pending — it
does not resolve successfully as the claim states. -/
theorem halt_midprogram_promise_pending :
    (run [⟨10, .halt⟩, ⟨20, .print "X"⟩] 5).result ≠ some none ∧
    (run [⟨10, .halt⟩, ⟨20, .print "X"⟩] 5).result = none ∧
    (run [⟨10, .halt⟩, ⟨20, .print "X"⟩] 5).steps = 1 ∧
    (run [⟨10, .halt⟩, ⟨20, .print "X"⟩] 5).scheduled = none := by
  have h : (run [⟨10, .halt⟩, ⟨20, .print "X"⟩] 5).result = none := rfl
  exact ⟨by rw [h]; exact fun hc => Option.noConfusion hc, h, rfl, rfl⟩

/-- C2 (amended): a statement calling `halt()` stops the run loop after its
own step — no further statement executes and no resumption is scheduled —
but the promise resolves with success only when the halting statement has no
following line (the end-of-program path fires before the halt check);
otherwise the promise is left pending. -/
theorem halt_stops_without_settling (s : EngineState) (n : Nat) (L : Int)
    (hcur : getCurLine s = some ⟨L, .halt⟩) (hended : s.ended = false)
    (hjump : s.jumped = false) (hdelay : s.delay = none)
    (hres : s.result = none) :
    (executeLoop (n + 1) s).steps = s.steps + 1 ∧
    (executeLoop (n + 1) s).scheduled = s.scheduled ∧
    (∀ next, getNextLine s = some next →
       (executeLoop (n + 1) s).result = none ∧
       (executeLoop (n + 1) s).ended = false ∧
       (executeLoop (n + 1) s).halted = true) ∧
    (getNextLine s = none → (executeLoop (n + 1) s).result = some none) := by
  have hstep : step s =
      { s with steps := s.steps + 1, visited := s.visited ++ [L],
               halted := true } := by
    unfold step
    rw [hcur]
    simp only [runAction]
    rfl
  have hkey := executeLoop_succ_nojump n s _ hstep hended hjump rfl rfl
  rw [hkey]
  cases hnext : getNextLine s with
  | none => simp [endProg, hres]
  | some next =>
    dsimp only
    rw [hdelay]
    dsimp only
    refine ⟨rfl, rfl, ?_, ?_⟩
    · intro a ha
      exact ⟨hres, hended, rfl⟩
    · intro hcontra
      exact Option.noConfusion hcontra

/-- C2 witness (for the amended statement): with `halt` at line 10 followed
by line 20 the loop stops with the promise pending; with `halt` as the only
line the promise resolves with success. -/
theorem halt_stops_without_settling_witness :
    (executeLoop 1
        { program := [⟨10, .halt⟩, ⟨20, .print "X"⟩], lineno := 10 }).result =
      none ∧
    (executeLoop 1
        { program := [⟨10, .halt⟩, ⟨20, .print "X"⟩], lineno := 10 }).steps = 1 ∧
    (executeLoop 1
        { program := [⟨10, .halt⟩, ⟨20, .print "X"⟩], lineno := 10 }).scheduled =
      none ∧
    (executeLoop 1 { program := [⟨10, .halt⟩], lineno := 10 }).result =
      some none := by
  have h1 := halt_stops_without_settling
    { program := [⟨10, .halt⟩, ⟨20, .print "X"⟩], lineno := 10 } 0 10
    rfl rfl rfl rfl rfl
  have h2 := halt_stops_without_settling
    { program := [⟨10, .halt⟩], lineno := 10 } 0 10 rfl rfl rfl rfl rfl
  exact ⟨(h1.2.2.1 ⟨20, .print "X"⟩ rfl).1, h1.1, h1.2.1, h2.2.2.2 rfl⟩

end PgBasic
